import Mathlib

set_option maxRecDepth 1000000

/-!
Shallow embedding of the DataVizStream geometry core: the synthetic unicorn
dataset generator (`generate_large_realistic_dataset` in
`utils/data_sources.py`) and the five 3-D layout engines in
`visualizations/`.  Numeric values are modelled over `ℚ` (exact rational
idealization of IEEE doubles); numpy's legacy seeded randomness
(`RandomState(42)` / `np.random.seed(42)`) is modelled bit-exactly by a
Mersenne Twister (MT19937).  Word vectors (the 624-word twister key and
the index vector being shuffled) are encoded as single naturals in base
`2^32` so that evaluation stays in strict GMP arithmetic.
-/

namespace I2U

/-! ### numpy legacy Mersenne Twister (randomkit.c), bit-exact over ℕ -/

/-- The word base `2^32`. -/
def W : ℕ := 4294967296

/-- Truncate to a 32-bit word. -/
def u32 (x : ℕ) : ℕ := x % W

/-- Strict sequencing aid: semantically the identity on `b` (see `nseq_eq`),
but forces the numeric accumulator `a` during definitional evaluation, keeping
kernel/elaborator reduction of the sequential loops below iterative in depth. -/
def nseq {α : Type} (a : ℕ) (b : α) : α := if a = 0 then b else b

theorem nseq_eq {α : Type} (a : ℕ) (b : α) : nseq a b = b := ite_self b

/-- Digit `i` of a base-`2^32` encoded word vector. -/
def wget (K i : ℕ) : ℕ := (K >>> (32 * i)) % W

/-- Overwrite digit `i` of a base-`2^32` encoded word vector with `v`. -/
def wset (K i v : ℕ) : ℕ := K + (v <<< (32 * i)) - (wget K i <<< (32 * i))

/-- State of numpy's legacy MT19937 generator: 624 key words (encoded in
one natural) plus the read cursor. -/
structure MTState where
  key : ℕ
  pos : ℕ
deriving DecidableEq, Repr

/-- Tail of `init_genrand` seeding:
`mt[i] = u32 (1812433253 * (mt[i-1] ^^^ (mt[i-1] >>> 30)) + i)`. -/
def mtSeedAux : ℕ → ℕ → ℕ → ℕ → ℕ
  | 0, _, _, acc => acc
  | n+1, prev, i, acc =>
    let cur := u32 (1812433253 * (prev ^^^ (prev >>> 30)) + i)
    nseq acc (mtSeedAux n cur (i+1) (acc + (cur <<< (32 * i))))

/-- `np.random.RandomState(seed)` / `np.random.seed(seed)`: `init_genrand`,
with the cursor past the end so the first draw regenerates the block. -/
def mtInit (seed : ℕ) : MTState :=
  let k0 := u32 seed
  { key := mtSeedAux 623 k0 1 k0, pos := 624 }

/-- One in-place step of the MT19937 block regeneration. -/
def mtRegenStep (key i : ℕ) : ℕ :=
  let y := (wget key i &&& 0x80000000) ||| (wget key ((i+1) % 624) &&& 0x7fffffff)
  let v := wget key ((i+397) % 624) ^^^ (y >>> 1) ^^^ (if y % 2 = 1 then 0x9908b0df else 0)
  wset key i v

/-- The refill loop of numpy `rk_random`, updating words `i, i+1, ...` in place. -/
def mtRegenAux : ℕ → ℕ → ℕ → ℕ
  | 0, _, key => key
  | n+1, i, key => nseq key (mtRegenAux n (i+1) (mtRegenStep key i))

/-- Regenerate the 624-word block (numpy `rk_random` refill loop, in place). -/
def mtRegen (key : ℕ) : ℕ :=
  mtRegenAux 624 0 key

/-- MT19937 tempering. -/
def temper (y : ℕ) : ℕ :=
  let y1 := y ^^^ (y >>> 11)
  let y2 := y1 ^^^ ((y1 <<< 7) &&& 0x9d2c5680)
  let y3 := y2 ^^^ ((y2 <<< 15) &&& 0xefc60000)
  y3 ^^^ (y3 >>> 18)

/-- numpy `rk_random`: one tempered 32-bit draw plus the successor state. -/
def rkRandom (s : MTState) : ℕ × MTState :=
  if s.pos ≥ 624 then
    let k := mtRegen s.key
    (temper (wget k 0), { key := k, pos := 1 })
  else
    (temper (wget s.key s.pos), { key := s.key, pos := s.pos + 1 })

/-- The 53-bit mantissa of numpy `rk_double`: `(a >>> 5) * 2^26 + (b >>> 6)`
from two consecutive 32-bit draws. -/
def rkMantissa (s : MTState) : ℕ × MTState :=
  let (r1, s1) := rkRandom s
  let (r2, s2) := rkRandom s1
  ((r1 >>> 5) * 67108864 + (r2 >>> 6), s2)

/-- numpy `rk_double`: a 53-bit uniform draw in `[0,1)`, exact over `ℚ`. -/
def rkDouble (s : MTState) : ℚ × MTState :=
  let (m, s1) := rkMantissa s
  ((m : ℚ) / (9007199254740992 : ℚ), s1)

/-- `np.random.uniform(lo, hi)` on the given state (`loc + scale * rk_double`). -/
def npUniform (lo hi : ℚ) (s : MTState) : ℚ × MTState :=
  let (d, s1) := rkDouble s
  (lo + (hi - lo) * d, s1)

/-- `np.random.uniform(lo, hi, n)`: a vector of `n` uniform draws. -/
def npUniforms (lo hi : ℚ) : ℕ → MTState → List ℚ × MTState
  | 0, s => ([], s)
  | n+1, s =>
    let (d, s1) := npUniform lo hi s
    let (ds, s2) := npUniforms lo hi n s1
    (d :: ds, s2)

/-- Smallest all-ones mask covering `mx` (numpy `rk_interval` mask build). -/
def maskFor (mx : ℕ) : ℕ :=
  let m1 := mx ||| (mx >>> 1)
  let m2 := m1 ||| (m1 >>> 2)
  let m3 := m2 ||| (m2 >>> 4)
  let m4 := m3 ||| (m3 >>> 8)
  m4 ||| (m4 >>> 16)

/-- Rejection loop of numpy `rk_interval`, with fuel (the source loop
terminates with probability 1; the fuel is never exhausted on the inputs
evaluated in this development). -/
def rkIntervalAux : ℕ → ℕ → ℕ → MTState → ℕ × MTState
  | 0, _, _, s => (0, s)
  | fuel+1, mx, mask, s =>
    let (v, s1) := rkRandom s
    let w := v &&& mask
    if w ≤ mx then (w, s1) else rkIntervalAux fuel mx mask s1

/-- numpy `rk_interval max`: uniform draw in `[0, max]`. -/
def rkInterval (mx : ℕ) (s : MTState) : ℕ × MTState :=
  if mx = 0 then (0, s) else rkIntervalAux 10000 mx (maskFor mx) s

/-- Swap digits `i` and `j` of an encoded index vector. -/
def pswap (P i j : ℕ) : ℕ :=
  let vi := wget P i
  let vj := wget P j
  wset (wset P i vj) j vi

/-- `arange n` encoded in base `2^32`: digit `k` holds `k`. -/
def encodeRange : ℕ → ℕ
  | 0 => 0
  | n+1 => encodeRange n + (n <<< (32 * n))

/-- The transposition of positions `a` and `b`. -/
def tau (a b k : ℕ) : ℕ := if k = b then a else if k = a then b else k

/-- Digits `0..n-1` are a bounded injective family (a permutation of
`0..n-1` once also surjective; bounded injectivity is all the claims use). -/
def PermInv (n P : ℕ) : Prop :=
  (∀ k, k < n → wget P k < n) ∧
  ∀ k1 k2, k1 < n → k2 < n → k1 ≠ k2 → wget P k1 ≠ wget P k2

/-- numpy legacy `shuffle`: Fisher–Yates from the top index down to 1,
on an encoded index vector. -/
def shuffleAux : ℕ → MTState → ℕ → MTState × ℕ
  | 0, s, P => (s, P)
  | i+1, s, P =>
    let (j, s1) := rkInterval (i+1) s
    nseq (P + s1.key + s1.pos) (shuffleAux i s1 (pswap P (i+1) j))

/-- Encoded result of `np.random.RandomState(42).permutation n`. -/
def npPermutationNum (n : ℕ) : ℕ :=
  (shuffleAux (n - 1) (mtInit 42) (encodeRange n)).2

/-- `np.random.RandomState(42).permutation n` as a list (as used by
`DataFrame.sample(n=k, random_state=42)`, which takes the first `k`
entries of this permutation and returns the rows in that order). -/
def npPermutation (n : ℕ) : List ℕ :=
  (List.range n).map (wget (npPermutationNum n))

/-- Original position of the record that `df.sample(n=cap, random_state=42)`
places at row `k` of the sampled frame, for an input frame of `n` rows. -/
def downsampleIdx (n cap k : ℕ) : ℕ :=
  ((npPermutation n).take cap).getD k 0

/-- `df.sample(n=cap, random_state=42)` guarded by the per-engine size cap:
the `if len(df) > cap` branch of every layout engine. -/
def downsample {α : Type} (dflt : α) (ds : List α) (cap : ℕ) : List α :=
  if ds.length > cap then ((npPermutation ds.length).take cap).map (fun j => ds.getD j dflt)
  else ds

/-! ### Record model

A raw input record (one dict of the `data` list handed to the engines).
`pd.DataFrame(data)` makes a column exist iff some dict has the key; a row
lacking a key of an existing column holds NaN.  The claims under study only
exercise datasets whose columns are either fully present or fully absent,
so the NaN placeholder for a missing entry of a present column is modelled
as `0` (never reached by any theorem below). -/
structure Rec where
  company : Option String
  valuation : Option ℚ
  impact : Option ℚ
  growth : Option ℚ
deriving DecidableEq, Repr, Inhabited

/-- The `1e-9` epsilon guard of the normalization denominators. -/
def eps : ℚ := 1 / 1000000000

/-- pandas `.min()` of a numeric column. -/
def qmin : List ℚ → ℚ
  | [] => 0
  | x :: xs => xs.foldl min x

/-- pandas `.max()` of a numeric column. -/
def qmax : List ℚ → ℚ
  | [] => 0
  | x :: xs => xs.foldl max x

/-- `np.linspace(a, b, n)` (endpoint included), exact over `ℚ`. -/
def linspace (a b : ℚ) : ℕ → List ℚ
  | 0 => []
  | 1 => [a]
  | m+2 => (List.range (m+2)).map (fun i : ℕ => a + (b - a) * (i : ℚ) / ((m : ℚ) + 1))

/-- Row labels of the (possibly sampled) frame: `df.sample` keeps the
original integer index labels, in sampled order. -/
def sampleIdx (n cap : ℕ) : List ℕ :=
  if n > cap then (npPermutation n).take cap else List.range n

/-- The column-fill fallback of every engine:
`if col not in df.columns: df[col] = np.random.uniform(lo, hi, len(df))`.
`present` is the column-existence test on the original `data` (column
membership is decided at `pd.DataFrame(data)` and survives sampling). -/
def colOf (present : Bool) (get : Rec → Option ℚ) (lo hi : ℚ)
    (df : List Rec) (s : MTState) : List ℚ × MTState :=
  if present then (df.map (fun r => (get r).getD 0), s)
  else npUniforms lo hi df.length s

/-- One hover-text entry `<b>name</b> Valuation … AI Impact … Growth …`. -/
structure Hover where
  name : String
  val : ℚ
  impact : ℚ
  growth : ℚ
deriving DecidableEq, Repr

/-- `row.get('Company', f'Company {i}')` with positional `i`. -/
def companyLabel (i : ℕ) (r : Rec) : String :=
  r.company.getD ("Company " ++ toString i)

/-- Hover texts built by `enumerate(df.iterrows())` from the filled columns. -/
def hoverList : ℕ → List Rec → List ℚ → List ℚ → List ℚ → List Hover
  | i, r :: rs, v :: vs, im :: ims, g :: gs =>
    ⟨companyLabel i r, v, im, g⟩ :: hoverList (i+1) rs vs ims gs
  | _, _, _, _, _ => []

/-- A rendered figure: either a real scene or the single-degenerate-point
error sentinel `Scatter3d(x=[0], y=[0], z=[0])` built by every engine's
`except` handler. -/
inductive Fig (β : Type) where
  | scene (b : β)
  | errorScene (p : ℚ × ℚ × ℚ)
deriving DecidableEq, Repr

/-! ### Spiral tunnel engine (`visualizations/spiral_tunnel.py`)

Coordinates are kept in pre-trigonometric form: the scene's Scatter3d
receives `x_k = radii_k · cos (π · thetaPi_k)`, `y_k = radii_k · sin (π ·
thetaPi_k)` and `z_k = zs_k`; equality of the stored fields is equality of
the rendered payload. -/
structure STBody where
  zs : List ℚ
  thetaPi : List ℚ
  radii : List ℚ
  hover : List Hover
deriving DecidableEq, Repr

/-- `create_spiral_tunnel_visualization(data)`, with the ambient
`np.random` state `s` passed explicitly (the column-fill fallbacks draw
from it; nothing reseeds it in this engine). -/
def create_spiral_tunnel_visualization (s : MTState) (data : List Rec) : Fig STBody :=
  if data = [] then .errorScene (0, 0, 0)
  else
    let df := downsample default data 1000
    let growthCol := (colOf (data.any (fun r => r.growth.isSome)) Rec.growth 50 200 df s).1
    let s1 := (colOf (data.any (fun r => r.growth.isSome)) Rec.growth 50 200 df s).2
    let valCol := (colOf (data.any (fun r => r.valuation.isSome)) Rec.valuation 1 50 df s1).1
    let s2 := (colOf (data.any (fun r => r.valuation.isSome)) Rec.valuation 1 50 df s1).2
    let impactCol := (colOf (data.any (fun r => r.impact.isSome)) Rec.impact 20 90 df s2).1
    let gmin := qmin growthCol
    let gmax := qmax growthCol
    let growthNorm := growthCol.map (fun g => (g - gmin) / (gmax - gmin + eps))
    let n := df.length
    .scene
      { zs := linspace 0 100 n
        thetaPi := linspace 0 12 n
        radii := growthNorm.map (fun g => 40 + 20 * g)
        hover := hoverList 0 df valCol impactCol growthCol }

/-! ### Wave surface engine (`visualizations/wave_surface.py`)

`scipy.interpolate.griddata(points, values, grid, method='cubic')` builds a
2-D Delaunay triangulation of the sites; Qhull raises `QhullError` when the
sites are affinely degenerate (fewer than 3 distinct sites, or all sites
collinear), and that exception is caught by the engine's `except` handler.
Outside the triangulated hull `griddata` yields NaN, modelled as `none`.
The interpolant's node values themselves are an external collaborator's
output and enter the model as the parameter `interp`; the subsequent
additive ripple `1.5·(sin(0.2·X)+cos(0.1·Y))` and the NaN→mean fill act on
those node values and are not referenced by any claim below. -/

/-- All sites collinear (equivalently: Qhull cannot build a 2-D simplex). -/
def collinearB (pts : List (ℚ × ℚ)) : Bool :=
  pts.all (fun p => pts.all (fun q => pts.all (fun r =>
    decide ((q.1 - p.1) * (r.2 - p.2) - (q.2 - p.2) * (r.1 - p.1) = 0))))

/-- Type of the external cubic scattered-data interpolant. -/
def Interp : Type := List (ℚ × ℚ) → List ℚ → ℚ × ℚ → Option ℚ

structure WSBody where
  xi : List ℚ
  yi : List ℚ
  zi : List (List (Option ℚ))
  markers : List (ℚ × ℚ × ℚ)
  sizes : List ℚ
  hover : List Hover
deriving DecidableEq, Repr

/-- `create_wave_surface_visualization(data)`. -/
def create_wave_surface_visualization (interp : Interp) (s : MTState)
    (data : List Rec) : Fig WSBody :=
  if data = [] then .errorScene (0, 0, 0)
  else
    let df := downsample default data 1500
    let growthCol := (colOf (data.any (fun r => r.growth.isSome)) Rec.growth 50 200 df s).1
    let s1 := (colOf (data.any (fun r => r.growth.isSome)) Rec.growth 50 200 df s).2
    let valCol := (colOf (data.any (fun r => r.valuation.isSome)) Rec.valuation 1 50 df s1).1
    let s2 := (colOf (data.any (fun r => r.valuation.isSome)) Rec.valuation 1 50 df s1).2
    let impactCol := (colOf (data.any (fun r => r.impact.isSome)) Rec.impact 20 90 df s2).1
    let gmin := qmin growthCol
    let gmax := qmax growthCol
    let growthNorm := growthCol.map (fun g => (g - gmin) / (gmax - gmin + eps))
    let xi := linspace gmin gmax 100
    let yi := linspace (qmin valCol) (qmax valCol) 100
    let points := growthCol.zip valCol
    if collinearB points then .errorScene (0, 0, 0)
    else .scene
      { xi := xi
        yi := yi
        zi := yi.map (fun y => xi.map (fun x => interp points impactCol (x, y)))
        markers := (growthCol.zip (valCol.zip impactCol)).map
          (fun p => (p.1, p.2.1, p.2.2 + 1/2))
        sizes := growthNorm.map (fun g => 8 + 12 * g)
        hover := hoverList 0 df valCol impactCol growthCol }

/-! ### Ripple bubbles engine (`visualizations/ripple_bubbles.py`)

Frame `f`'s markers are placed at the base x/y with
`z_i = 0.5 + 0.4·sin(2π·f/60 + i·0.2)`, `i` ranging over the frame's row
labels (`iterrows`).  A frame z entry is stored in pre-trigonometric form
`(a, c)` with rendered value `0.5 + 0.4·sin(a·π + c)`.  The engine also
derives three `*_Norm` columns that no later statement reads; they are
omitted.  `np.random.seed(42)` replaces the ambient state before the
bubble positions are drawn. -/
structure RBFrame where
  fx : List ℚ
  fy : List ℚ
  fzArg : List (ℚ × ℚ)
deriving DecidableEq, Repr

structure RBBody where
  bx : List ℚ
  byy : List ℚ
  bz : List ℚ
  sizes : List ℚ
  colors : List ℚ
  hover : List Hover
  frames : List RBFrame
deriving DecidableEq, Repr

/-- `create_ripple_bubbles_visualization(data)`. -/
def create_ripple_bubbles_visualization (s : MTState) (data : List Rec) : Fig RBBody :=
  if data = [] then .errorScene (0, 0, 0)
  else
    let df := downsample default data 800
    let labels := sampleIdx data.length 800
    let growthCol := (colOf (data.any (fun r => r.growth.isSome)) Rec.growth 50 200 df s).1
    let s1 := (colOf (data.any (fun r => r.growth.isSome)) Rec.growth 50 200 df s).2
    let valCol := (colOf (data.any (fun r => r.valuation.isSome)) Rec.valuation 1 50 df s1).1
    let s2 := (colOf (data.any (fun r => r.valuation.isSome)) Rec.valuation 1 50 df s1).2
    let impactCol := (colOf (data.any (fun r => r.impact.isSome)) Rec.impact 20 90 df s2).1
    let n := df.length
    let bx := (npUniforms 0 1 n (mtInit 42)).1
    let t1 := (npUniforms 0 1 n (mtInit 42)).2
    let byy := (npUniforms 0 1 n t1).1
    let t2 := (npUniforms 0 1 n t1).2
    let bz := (npUniforms 0 1 n t2).1
    .scene
      { bx := bx
        byy := byy
        bz := bz
        sizes := valCol.map (fun v => min 30 (max 6 (v * (7/10))))
        colors := impactCol
        hover := hoverList 0 df valCol impactCol growthCol
        frames := (List.range 60).map (fun f : ℕ =>
          { fx := bx
            fy := byy
            fzArg := labels.map (fun i : ℕ => ((2 * (f : ℚ)) / 60, (i : ℚ) / 5)) }) }

/-! ### Undulating wave engine (`visualizations/undulating_wave.py`)

The source computes the surface height as
`np.sin(10 * np.sqrt((x_grid - x_min)/(x_max - x_min + 1e-9) ** 2 +
(y_grid - y_min)/(y_max - y_min + 1e-9) ** 2))`; `**` binds tighter than
`/`, so each addend divides by the *square of the denominator* and the
radicand can be negative on the padded margin (then `np.sqrt` yields NaN).
Grid and marker heights are stored as that radicand; the rendered value is
`sin(10·√arg)` (NaN when `arg < 0`). -/

/-- The radicand actually computed by lines 42 and 68 of the source. -/
def codeRadicand (xmin xmax ymin ymax x y : ℚ) : ℚ :=
  (x - xmin) / (xmax - xmin + eps) ^ 2 + (y - ymin) / (ymax - ymin + eps) ^ 2

structure UWBody where
  gx : List ℚ
  gy : List ℚ
  zArg : List (List ℚ)
  cx : List ℚ
  cy : List ℚ
  czArg : List ℚ
  hover : List Hover
deriving DecidableEq, Repr

/-- `create_undulating_wave_visualization(data)`. -/
def create_undulating_wave_visualization (s : MTState) (data : List Rec) : Fig UWBody :=
  if data = [] then .errorScene (0, 0, 0)
  else
    let df := downsample default data 1200
    let growthCol := (colOf (data.any (fun r => r.growth.isSome)) Rec.growth 50 200 df s).1
    let s1 := (colOf (data.any (fun r => r.growth.isSome)) Rec.growth 50 200 df s).2
    let valCol := (colOf (data.any (fun r => r.valuation.isSome)) Rec.valuation 1 50 df s1).1
    let s2 := (colOf (data.any (fun r => r.valuation.isSome)) Rec.valuation 1 50 df s1).2
    let impactCol := (colOf (data.any (fun r => r.impact.isSome)) Rec.impact 20 90 df s2).1
    let xmin := qmin valCol
    let xmax := qmax valCol
    let ymin := qmin growthCol
    let ymax := qmax growthCol
    let xpad := (xmax - xmin) * (1/10)
    let ypad := (ymax - ymin) * (1/10)
    let gx := linspace (xmin - xpad) (xmax + xpad) 50
    let gy := linspace (ymin - ypad) (ymax + ypad) 50
    let cx := (npUniforms (xmin - xpad) (xmax + xpad) df.length (mtInit 42)).1
    let t1 := (npUniforms (xmin - xpad) (xmax + xpad) df.length (mtInit 42)).2
    let cy := (npUniforms (ymin - ypad) (ymax + ypad) df.length t1).1
    .scene
      { gx := gx
        gy := gy
        zArg := gy.map (fun y => gx.map (fun x => codeRadicand xmin xmax ymin ymax x y))
        cx := cx
        cy := cy
        czArg := (cx.zip cy).map (fun p => codeRadicand xmin xmax ymin ymax p.1 p.2)
        hover := hoverList 0 df valCol impactCol growthCol }

/-! ### Geolocation spiral engine (`visualizations/geolocation_bubble.py`)

`df.sort_values('Valuation ($B)', ascending=True)` is modelled by a stable
argsort on the valuation column (a deterministic function of the key
column only, as in the source).  This engine fills only the valuation and
impact columns and never reads `'Growth Rate (%)'`. -/

/-- Stable insertion of index `i` into an index list sorted by `ks`. -/
def insertIdx (ks : List ℚ) (i : ℕ) : List ℕ → List ℕ
  | [] => [i]
  | j :: rest =>
    if ks.getD j 0 ≤ ks.getD i 0 then j :: insertIdx ks i rest else i :: j :: rest

/-- Stable argsort of a key column. -/
def argsortQ (ks : List ℚ) : List ℕ :=
  (List.range ks.length).foldl (fun acc i => insertIdx ks i acc) []

structure GeoHover where
  name : String
  val : ℚ
  impact : ℚ
deriving DecidableEq, Repr

/-- Hover texts of the sorted frame (`iterrows` after `reset_index`). -/
def geoHover : ℕ → List Rec → List ℚ → List ℚ → List GeoHover
  | i, r :: rs, v :: vs, im :: ims =>
    ⟨companyLabel i r, v, im⟩ :: geoHover (i+1) rs vs ims
  | _, _, _, _ => []

structure GEOBody where
  thetaPi : List ℚ
  radii : List ℚ
  zs : List ℚ
  sizes : List ℚ
  colors : List ℚ
  hover : List GeoHover
  lineThetaPi : List ℚ
  lineRadii : List ℚ
  lineZs : List ℚ
deriving DecidableEq, Repr

/-- `create_geolocation_visualization(data)`. -/
def create_geolocation_visualization (s : MTState) (data : List Rec) : Fig GEOBody :=
  if data = [] then .errorScene (0, 0, 0)
  else
    let df := downsample default data 2000
    let valCol := (colOf (data.any (fun r => r.valuation.isSome)) Rec.valuation 1 50 df s).1
    let s1 := (colOf (data.any (fun r => r.valuation.isSome)) Rec.valuation 1 50 df s).2
    let impactCol := (colOf (data.any (fun r => r.impact.isSome)) Rec.impact 20 90 df s1).1
    let ord := argsortQ valCol
    let valS := ord.map (fun j => valCol.getD j 0)
    let impS := ord.map (fun j => impactCol.getD j 0)
    let rowS := ord.map (fun j => df.getD j default)
    let n := df.length
    .scene
      { thetaPi := linspace 0 6 n
        radii := (List.range n).map (fun i => 2 + (3/10) * i / n * 8)
        zs := (List.range n).map (fun i => (1/2) * i + valS.getD i 0 * (1/10))
        sizes := valS.map (fun v => min 40 (max 8 (v * (6/5) + 8)))
        colors := impS
        hover := geoHover 0 rowS valS impS
        lineThetaPi := linspace 0 6 200
        lineRadii := (List.range 200).map (fun i => 2 + (3/10) * i / 200 * 8)
        lineZs := (List.range 200).map (fun i => (1/2) * i / 200 * n) }

/-! ### Synthetic generator (`generate_large_realistic_dataset`)

The generator's `random.choice` / `random.uniform` / `random.randint`
draws are modelled by an oracle of per-record draws, quantified over all
draw values that the source distributions can produce. -/

def sectors : List String :=
  ["Fintech", "Healthtech", "AI/ML", "E-commerce", "SaaS", "Edtech",
   "Gaming", "Aerospace", "Cybersecurity", "Biotech", "Cleantech",
   "Mobility", "Foodtech", "Proptech", "Adtech", "Logistics"]

def countries : List String :=
  ["USA", "China", "India", "UK", "Germany", "Israel", "Canada",
   "Sweden", "Singapore", "Australia", "France", "Netherlands", "South Korea"]

def statuses : List String := ["Unicorn", "Soonicorn", "Decacorn", "Hectocorn"]

/-- One record's random draws. -/
structure GenDraws where
  sector : ℕ
  country : ℕ
  status : ℕ
  valBase : ℚ
  impactBase : ℚ
  growthBase : ℚ
  corr : ℚ
  impactJitter : ℚ
  founded : ℕ
  lon : ℚ
  lat : ℚ
deriving Repr, Inhabited

/-- The sector-conditioned `(valuation, impact, growth)` uniform ranges of
the `if sector == …` ladder. -/
def sectorRanges (sector : String) : (ℚ × ℚ) × (ℚ × ℚ) × (ℚ × ℚ) :=
  if sector = "AI/ML" then ((1, 300), (70, 95), (200, 2000))
  else if sector = "Fintech" then ((1, 150), (40, 80), (100, 800))
  else if sector = "Healthtech" ∨ sector = "Biotech" then ((1/2, 100), (60, 90), (80, 500))
  else if sector = "E-commerce" then ((1, 200), (30, 70), (150, 1000))
  else ((1/2, 80), (20, 70), (50, 400))

/-- The draws are possible outputs of the source's distributions. -/
def ValidDraws (d : GenDraws) : Prop :=
  d.sector < 16 ∧ d.country < 13 ∧ d.status < 4 ∧
  (sectorRanges (sectors.getD d.sector "")).1.1 ≤ d.valBase ∧
  d.valBase ≤ (sectorRanges (sectors.getD d.sector "")).1.2 ∧
  (sectorRanges (sectors.getD d.sector "")).2.1.1 ≤ d.impactBase ∧
  d.impactBase ≤ (sectorRanges (sectors.getD d.sector "")).2.1.2 ∧
  (sectorRanges (sectors.getD d.sector "")).2.2.1 ≤ d.growthBase ∧
  d.growthBase ≤ (sectorRanges (sectors.getD d.sector "")).2.2.2 ∧
  (4/5 : ℚ) ≤ d.corr ∧ d.corr ≤ 6/5 ∧
  (-10 : ℚ) ≤ d.impactJitter ∧ d.impactJitter ≤ 10

/-- `# Adjust based on status`: the status clamp applied to the
sector-derived valuation base, before the jitter. -/
def statusClamp (status : String) (v : ℚ) : ℚ :=
  if status = "Decacorn" then max 10 v
  else if status = "Hectocorn" then max 100 v
  else if status = "Soonicorn" then min 1 v
  else v

/-- One generated record (all fields of the appended dict). -/
structure GenRec where
  company : String
  valuation : ℚ
  impact : ℚ
  growth : ℚ
  sector : String
  founded : ℕ
  country : String
  status : String
  lon : ℚ
  lat : ℚ
deriving DecidableEq, Repr

/-- The loop body of `generate_large_realistic_dataset` for index `i`. -/
def makeRecord (i : ℕ) (d : GenDraws) : GenRec :=
  let sector := sectors.getD d.sector ""
  let status := statuses.getD d.status ""
  let vb := statusClamp status d.valBase
  { company := sector ++ " Startup " ++ toString (i+1)
    valuation := vb * d.corr
    impact := min 95 (max 1 (d.impactBase + d.impactJitter))
    growth := d.growthBase * d.corr
    sector := sector
    founded := d.founded
    country := countries.getD d.country ""
    status := status
    lon := d.lon
    lat := d.lat }

/-- `generate_large_realistic_dataset(size)` under the draw oracle `ω`. -/
def generate (count : ℕ) (ω : ℕ → GenDraws) : List GenRec :=
  (List.range count).map (fun i => makeRecord i (ω i))

/-- The engines receive the generated dicts as raw records. -/
def GenRec.toRec (g : GenRec) : Rec :=
  { company := some g.company
    valuation := some g.valuation
    impact := some g.impact
    growth := some g.growth }

/-! ### Projections and concrete instances used by the claim theorems -/

/-- The z column the spiral tunnel scene hands to the renderer. -/
def stZs : Fig STBody → List ℚ
  | .scene b => b.zs
  | .errorScene _ => []

/-- Modelled from the spec: the undulating-wave grid radicand as the spec
states it, `normX² + normY²` with `normX = (x−xmin)/(xmax−xmin+ε)` and
`normY = (y−ymin)/(ymax−ymin+ε)` (the *normalized coordinates* squared). -/
def specRadicand (xmin xmax ymin ymax x y : ℚ) : ℚ :=
  ((x - xmin) / (xmax - xmin + eps)) ^ 2 + ((y - ymin) / (ymax - ymin + eps)) ^ 2

/-- The grid radicand at grid node (0,0) (lowest padded corner) of an
undulating-wave scene. -/
def uwGrid00 : Fig UWBody → ℚ
  | .scene b => (b.zArg.headD []).headD 0
  | .errorScene _ => 0

/-- A two-record dataset with all three numeric fields, distinct valuations
`0, 10` and distinct growth rates `0, 100`. -/
def dsC4 : List Rec :=
  [{ company := some "A", valuation := some 0, impact := some 10, growth := some 0 },
   { company := some "B", valuation := some 10, impact := some 20, growth := some 100 }]

/-- The C5 scenario: exactly two records with identical growth rate and
valuation (`growthRate=100, valuation=10`) and impact scores 50 and 75. -/
def dsC5 : List Rec :=
  [{ company := some "A", valuation := some 10, impact := some 50, growth := some 100 },
   { company := some "B", valuation := some 10, impact := some 75, growth := some 100 }]

/-- A cubic interpolant stand-in for closed counterexample evaluation. -/
def interpZero : Interp := fun _ _ _ => some 0

/-- Concrete generator draws: sector 4 (`SaaS`, the default sector bucket),
status 2 (`Decacorn`), valuation base 5, shared jitter factor 4/5. -/
def d0 : GenDraws :=
  { sector := 4, country := 0, status := 2, valBase := 5, impactBase := 30,
    growthBase := 60, corr := 4/5, impactJitter := 0, founded := 2015,
    lon := 0, lat := 0 }

/-- The hover texts the spiral tunnel scene hands to the renderer. -/
def stHover : Fig STBody → List Hover
  | .scene b => b.hover
  | .errorScene _ => []

/-- A raw record whose dict has no `'Growth Rate (%)'` key: the engines'
column-fill fallback draws its growth from the ambient `np.random` state. -/
def recNoG : Rec :=
  { company := some "X", valuation := some 10, impact := some 50, growth := none }

/-- 1001 distinguishable records (the company name records the original
position), one more than the spiral tunnel's 1000-record cap. -/
def demo1001 : List Rec :=
  (List.range 1001).map (fun k =>
    { company := some (toString k), valuation := some 1, impact := some 1,
      growth := some 1 })

/-- Rendered value of a stored ripple-frame z entry `(a, c)`:
`0.5 + 0.4·sin(a·π + c)` (the source's `0.5 + 0.4*np.sin(2*np.pi*frame/60
+ i*0.2)` with `a = 2·frame/60` and `c = i/5`). -/
noncomputable def realRippleZ (p : ℚ × ℚ) : ℝ :=
  1/2 + 2/5 * Real.sin ((p.1 : ℝ) * Real.pi + (p.2 : ℝ))

/-- The frames of a ripple-bubbles scene. -/
def rbFrames : Fig RBBody → List RBFrame
  | .scene b => b.frames
  | .errorScene _ => []

/-- The base x positions of a ripple-bubbles scene. -/
def rbBx : Fig RBBody → List ℚ
  | .scene b => b.bx
  | .errorScene _ => []

/-- The base y positions of a ripple-bubbles scene. -/
def rbBy : Fig RBBody → List ℚ
  | .scene b => b.byy
  | .errorScene _ => []

/-- A single-record dataset with all numeric fields, for the ripple-frame
counterexample. -/
def dsC8 : List Rec :=
  [{ company := some "A", valuation := some 10, impact := some 50, growth := some 100 }]

/-- A raw record without its `'Growth Rate (%)'` field — the part of the
input the geolocation engine can observe. -/
def eraseGrowth (r : Rec) : Option String × Option ℚ × Option ℚ :=
  (r.company, r.valuation, r.impact)

/-! ### General lemmas -/

theorem length_npPermutation (n : ℕ) : (npPermutation n).length = n := by
  simp [npPermutation]

theorem downsample_length_of_gt {α : Type} (d : α) {ds : List α} {cap : ℕ}
    (h : ds.length > cap) : (downsample d ds cap).length = cap := by
  simp only [downsample, if_pos h, List.length_map, List.length_take,
    length_npPermutation]
  exact min_eq_left h.le

theorem downsample_of_le {α : Type} (d : α) {ds : List α} {cap : ℕ}
    (h : ds.length ≤ cap) : downsample d ds cap = ds := by
  simp only [downsample, if_neg (by omega : ¬ ds.length > cap)]

/-- Each point of `linspace a b n` lies inside `[a, b]`. -/
theorem linspace_mem_bounds {a b : ℚ} (hab : a ≤ b) :
    ∀ {n : ℕ}, ∀ z ∈ linspace a b n, a ≤ z ∧ z ≤ b := by
  intro n
  match n with
  | 0 => intro z hz; simp [linspace] at hz
  | 1 =>
    intro z hz
    rw [linspace, List.mem_singleton] at hz
    exact ⟨le_of_eq hz.symm, hz ▸ hab⟩
  | m+2 =>
    intro z hz
    rw [linspace, List.mem_map] at hz
    obtain ⟨i, hi, hzi⟩ := hz
    rw [List.mem_range] at hi
    subst hzi
    have hba : (0 : ℚ) ≤ b - a := sub_nonneg.mpr hab
    have hm1 : (0 : ℚ) < (m : ℚ) + 1 := by positivity
    have hiq : (i : ℚ) ≤ (m : ℚ) + 1 := by
      have hile : i ≤ m + 1 := by omega
      exact_mod_cast hile
    have hi0 : (0 : ℚ) ≤ (i : ℚ) := by positivity
    have h0 : (0 : ℚ) ≤ (b - a) * (i : ℚ) / ((m : ℚ) + 1) :=
      div_nonneg (mul_nonneg hba hi0) hm1.le
    have hstep : (b - a) * (i : ℚ) / ((m : ℚ) + 1) ≤ b - a := by
      rw [div_le_iff₀ hm1]
      nlinarith
    constructor
    · linarith
    · linarith

theorem length_linspace (a b : ℚ) (n : ℕ) : (linspace a b n).length = n := by
  match n with
  | 0 => rfl
  | 1 => rfl
  | m+2 => rw [linspace, List.length_map, List.length_range]

theorem map_eq_length {α β : Type} {f : α → β} {l1 l2 : List α}
    (h : l1.map f = l2.map f) : l1.length = l2.length := by
  have h2 := congrArg List.length h
  simpa using h2

theorem map_eq_imp_getD {α β : Type} (f : α → β) :
    ∀ {l1 l2 : List α}, l1.map f = l2.map f →
      ∀ (j : ℕ) (d : α), f (l1.getD j d) = f (l2.getD j d) := by
  intro l1
  induction l1 with
  | nil =>
    intro l2 h j d
    cases l2 with
    | nil => rfl
    | cons b t => simp at h
  | cons a t ih =>
    intro l2 h j d
    cases l2 with
    | nil => simp at h
    | cons b t2 =>
      simp only [List.map_cons, List.cons.injEq] at h
      cases j with
      | zero => simpa using h.1
      | succ k => simpa using ih h.2 k d

theorem list_any_map {α β : Type} (f : α → β) (p : β → Bool) :
    ∀ l : List α, (l.map f).any p = l.any (fun a => p (f a)) := by
  intro l
  induction l with
  | nil => rfl
  | cons a t ih => simp [ih]

theorem geoHover_congr :
    ∀ (i : ℕ) (rs1 rs2 : List Rec) (vs ims : List ℚ),
      rs1.map Rec.company = rs2.map Rec.company →
      geoHover i rs1 vs ims = geoHover i rs2 vs ims := by
  intro i rs1
  induction rs1 generalizing i with
  | nil =>
    intro rs2 vs ims h
    cases rs2 with
    | nil => rfl
    | cons b t => simp at h
  | cons a t ih =>
    intro rs2 vs ims h
    cases rs2 with
    | nil => simp at h
    | cons b t2 =>
      simp only [List.map_cons, List.cons.injEq] at h
      cases vs with
      | nil => rfl
      | cons v vt =>
        cases ims with
        | nil => rfl
        | cons im imt =>
          simp only [geoHover]
          rw [companyLabel, companyLabel, h.1, ih (i+1) t2 vt imt h.2]

/-! ### Digit arithmetic of the base-`2^32` encoding -/

theorem W_eq : W = 2 ^ 32 := by norm_num [W]

theorem wget_lt_W (K i : ℕ) : wget K i < W :=
  Nat.mod_lt _ (by norm_num [W])

theorem pow_mul_succ (i : ℕ) : 2 ^ (32 * (i+1)) = 2 ^ (32 * i) * W := by
  rw [W_eq, ← pow_add]
  ring_nf

/-- Adding a multiple of `2^(32(j+1))` leaves digit `j` unchanged. -/
theorem wget_add_mul_high (x c j : ℕ) :
    wget (x + c * 2 ^ (32 * (j+1))) j = wget x j := by
  rw [wget, wget, Nat.shiftRight_eq_div_pow, Nat.shiftRight_eq_div_pow,
    pow_mul_succ]
  have h : c * (2 ^ (32 * j) * W) = c * W * 2 ^ (32 * j) := by ring
  rw [h, Nat.add_mul_div_right _ _ (by positivity : 0 < 2 ^ (32 * j)),
    Nat.add_mul_mod_self_right]

/-- The canonical decomposition realized by `wset`. -/
theorem wset_decomp (K i v : ℕ) :
    wset K i v = K % 2 ^ (32 * i) + v * 2 ^ (32 * i)
      + K / 2 ^ (32 * (i+1)) * 2 ^ (32 * (i+1)) := by
  rw [wset, wget, Nat.shiftLeft_eq, Nat.shiftLeft_eq, Nat.shiftRight_eq_div_pow]
  have hq2 : K / 2 ^ (32 * (i+1)) * 2 ^ (32 * (i+1))
      = K / 2 ^ (32 * i) / W * W * 2 ^ (32 * i) := by
    rw [pow_mul_succ, Nat.div_div_eq_div_mul]
    ring
  rw [hq2]
  set B := 2 ^ (32 * i) with hBdef
  set a := K / B with hadef
  set r := K % B with hrdef
  set m := a % W with hmdef
  set q := a / W with hqdef
  have hK : K = B * a + r := (Nat.div_add_mod K B).symm
  have ha : a = W * q + m := (Nat.div_add_mod a W).symm
  have key : K + v * B = (r + v * B + q * W * B) + m * B := by
    rw [hK, ha]
    ring
  rw [key, Nat.add_sub_cancel]

theorem wget_wset_self (K i v : ℕ) (hv : v < W) : wget (wset K i v) i = v := by
  rw [wset_decomp, wget, Nat.shiftRight_eq_div_pow]
  have hB : 0 < 2 ^ (32 * i) := by positivity
  have h1 : K / 2 ^ (32 * (i+1)) * 2 ^ (32 * (i+1))
      = K / 2 ^ (32 * (i+1)) * W * 2 ^ (32 * i) := by
    rw [pow_mul_succ]
    ring
  rw [h1, Nat.add_mul_div_right _ _ hB, Nat.add_mul_div_right _ _ hB,
    Nat.div_eq_of_lt (Nat.mod_lt _ hB), Nat.zero_add, Nat.add_mul_mod_self_right,
    Nat.mod_eq_of_lt hv]

theorem K_decomp (K i : ℕ) :
    K = K % 2 ^ (32 * i) + K / 2 ^ (32 * i) % W * 2 ^ (32 * i)
      + K / 2 ^ (32 * (i+1)) * 2 ^ (32 * (i+1)) := by
  have h3 := Nat.div_add_mod K (2 ^ (32 * i))
  have h4 := Nat.div_add_mod (K / 2 ^ (32 * i)) W
  have hq : K / 2 ^ (32 * (i+1)) = K / 2 ^ (32 * i) / W := by
    rw [pow_mul_succ, Nat.div_div_eq_div_mul]
  rw [hq, pow_mul_succ]
  calc K = 2 ^ (32 * i) * (K / 2 ^ (32 * i)) + K % 2 ^ (32 * i) := h3.symm
    _ = 2 ^ (32 * i) * (W * (K / 2 ^ (32 * i) / W) + K / 2 ^ (32 * i) % W)
        + K % 2 ^ (32 * i) := by rw [h4]
    _ = _ := by ring

theorem low_lt (r m i : ℕ) (hr : r < 2 ^ (32 * i)) (hm : m < W) :
    r + m * 2 ^ (32 * i) < 2 ^ (32 * (i+1)) := by
  rw [pow_mul_succ]
  calc r + m * 2 ^ (32 * i) < 2 ^ (32 * i) + m * 2 ^ (32 * i) :=
        Nat.add_lt_add_right hr _
    _ = (m + 1) * 2 ^ (32 * i) := by ring
    _ ≤ W * 2 ^ (32 * i) := Nat.mul_le_mul_right _ hm
    _ = 2 ^ (32 * i) * W := by ring

theorem wget_wset_lt {i j : ℕ} (K v : ℕ) (hj : j < i) :
    wget (wset K i v) j = wget K j := by
  have e1 : ∀ c : ℕ, c * 2 ^ (32 * i)
      = c * 2 ^ (32 * i - 32 * (j+1)) * 2 ^ (32 * (j+1)) := by
    intro c
    rw [mul_assoc, ← pow_add]
    congr 2
    omega
  have e2 : ∀ c : ℕ, c * 2 ^ (32 * (i+1))
      = c * 2 ^ (32 * (i+1) - 32 * (j+1)) * 2 ^ (32 * (j+1)) := by
    intro c
    rw [mul_assoc, ← pow_add]
    congr 2
    omega
  have hL : wset K i v = K % 2 ^ (32 * i)
      + (v * 2 ^ (32 * i - 32 * (j+1))
         + K / 2 ^ (32 * (i+1)) * 2 ^ (32 * (i+1) - 32 * (j+1)))
        * 2 ^ (32 * (j+1)) := by
    rw [wset_decomp, e1 v, e2 (K / 2 ^ (32 * (i+1)))]
    ring
  have hR : K = K % 2 ^ (32 * i)
      + (K / 2 ^ (32 * i) % W * 2 ^ (32 * i - 32 * (j+1))
         + K / 2 ^ (32 * (i+1)) * 2 ^ (32 * (i+1) - 32 * (j+1)))
        * 2 ^ (32 * (j+1)) := by
    conv_lhs => rw [K_decomp K i]
    rw [e1 (K / 2 ^ (32 * i) % W), e2 (K / 2 ^ (32 * (i+1)))]
    ring
  rw [hL, wget_add_mul_high]
  conv_rhs => rw [hR]
  rw [wget_add_mul_high]

theorem wget_wset_gt {i j : ℕ} (K v : ℕ) (hv : v < W) (hj : i < j) :
    wget (wset K i v) j = wget K j := by
  have hMpos : 0 < 2 ^ (32 * (i+1)) := by positivity
  have key : ∀ low q : ℕ, low < 2 ^ (32 * (i+1)) →
      wget (low + q * 2 ^ (32 * (i+1))) j
        = q / 2 ^ (32 * j - 32 * (i+1)) % W := by
    intro low q hlow
    have hsplit : 2 ^ (32 * j) = 2 ^ (32 * (i+1)) * 2 ^ (32 * j - 32 * (i+1)) := by
      rw [← pow_add]
      congr 1
      omega
    rw [wget, Nat.shiftRight_eq_div_pow, hsplit, ← Nat.div_div_eq_div_mul,
      Nat.add_mul_div_right _ _ hMpos, Nat.div_eq_of_lt hlow, Nat.zero_add]
  have h1 : K % 2 ^ (32 * i) < 2 ^ (32 * i) := Nat.mod_lt _ (by positivity)
  have hm : K / 2 ^ (32 * i) % W < W := Nat.mod_lt _ (by norm_num [W])
  calc wget (wset K i v) j
      = K / 2 ^ (32 * (i+1)) / 2 ^ (32 * j - 32 * (i+1)) % W := by
        rw [wset_decomp]
        exact key _ _ (low_lt _ _ _ h1 hv)
    _ = wget K j := by
        conv_rhs => rw [K_decomp K i]
        exact (key _ _ (low_lt _ _ _ h1 hm)).symm

/-- Digit view of `pswap`: positions `a` and `b` exchange their digits. -/
theorem wget_pswap (P a b k : ℕ) :
    wget (pswap P a b) k
      = if k = b then wget P a else if k = a then wget P b else wget P k := by
  rw [pswap]
  by_cases hkb : k = b
  · subst hkb
    rw [if_pos rfl, wget_wset_self _ _ _ (wget_lt_W P a)]
  · rw [if_neg hkb]
    have hne : wget (wset (wset P a (wget P b)) b (wget P a)) k
        = wget (wset P a (wget P b)) k := by
      rcases Nat.lt_or_ge k b with hlt | hge
      · exact wget_wset_lt _ _ hlt
      · have hgt : b < k := by omega
        exact wget_wset_gt _ _ (wget_lt_W P a) hgt
    rw [hne]
    by_cases hka : k = a
    · subst hka
      rw [if_pos rfl, wget_wset_self _ _ _ (wget_lt_W P b)]
    · rw [if_neg hka]
      rcases Nat.lt_or_ge k a with hlt | hge
      · exact wget_wset_lt _ _ hlt
      · have hgt : a < k := by omega
        exact wget_wset_gt _ _ (wget_lt_W P b) hgt

theorem tau_invol (a b k : ℕ) : tau a b (tau a b k) = k := by
  unfold tau
  split_ifs <;> omega

theorem tau_lt {n a b k : ℕ} (ha : a < n) (hb : b < n) (hk : k < n) :
    tau a b k < n := by
  unfold tau
  split_ifs <;> omega

theorem tau_inj {a b k1 k2 : ℕ} (h : tau a b k1 = tau a b k2) : k1 = k2 := by
  have h2 := congrArg (tau a b) h
  rwa [tau_invol, tau_invol] at h2

theorem wget_pswap_tau (P a b k : ℕ) :
    wget (pswap P a b) k = wget P (tau a b k) := by
  rw [wget_pswap, tau]
  split_ifs <;> rfl

theorem permInv_pswap {n P : ℕ} (h : PermInv n P) {a b : ℕ} (ha : a < n)
    (hb : b < n) : PermInv n (pswap P a b) := by
  obtain ⟨hbd, hinj⟩ := h
  constructor
  · intro k hk
    rw [wget_pswap_tau]
    exact hbd _ (tau_lt ha hb hk)
  · intro k1 k2 hk1 hk2 hne
    rw [wget_pswap_tau, wget_pswap_tau]
    exact hinj _ _ (tau_lt ha hb hk1) (tau_lt ha hb hk2)
      (fun hcontra => hne (tau_inj hcontra))

theorem rkIntervalAux_le (fuel mx mask : ℕ) :
    ∀ s : MTState, (rkIntervalAux fuel mx mask s).1 ≤ mx := by
  induction fuel with
  | zero => intro s; simp [rkIntervalAux]
  | succ f ih =>
    intro s
    rw [rkIntervalAux]
    rcases hr : rkRandom s with ⟨v, s1⟩
    simp only []
    split_ifs with hcond
    · simpa using hcond
    · exact ih s1

theorem rkInterval_le (mx : ℕ) (s : MTState) : (rkInterval mx s).1 ≤ mx := by
  rw [rkInterval]
  split_ifs with h0
  · simp
  · exact rkIntervalAux_le _ _ _ s

theorem shuffle_inv (n : ℕ) :
    ∀ (i : ℕ) (s : MTState) (P : ℕ), i < n → PermInv n P →
      PermInv n (shuffleAux i s P).2 := by
  intro i
  induction i with
  | zero =>
    intro s P _ hP
    simpa [shuffleAux] using hP
  | succ m ih =>
    intro s P hi hP
    have hj : (rkInterval (m+1) s).1 ≤ m+1 := rkInterval_le (m+1) s
    rw [shuffleAux]
    rcases hr : rkInterval (m+1) s with ⟨j, s1⟩
    rw [hr] at hj
    simp only [nseq_eq]
    exact ih s1 _ (by omega)
      (permInv_pswap hP (by omega) (by omega : j < n))

theorem encodeRange_lt (n : ℕ) (hn : n ≤ W) : encodeRange n < 2 ^ (32 * n) := by
  induction n with
  | zero => simp [encodeRange]
  | succ m ih =>
    rw [encodeRange, Nat.shiftLeft_eq]
    calc encodeRange m + m * 2 ^ (32 * m)
        < 2 ^ (32 * m) + m * 2 ^ (32 * m) :=
          Nat.add_lt_add_right (ih (by omega)) _
      _ = (m + 1) * 2 ^ (32 * m) := by ring
      _ ≤ W * 2 ^ (32 * m) := Nat.mul_le_mul_right _ hn
      _ = 2 ^ (32 * (m+1)) := by
          rw [pow_mul_succ]
          ring

theorem encodeRange_wget (n : ℕ) (hn : n ≤ W) :
    ∀ k, k < n → wget (encodeRange n) k = k := by
  induction n with
  | zero => intro k hk; omega
  | succ m ih =>
    intro k hk
    rw [encodeRange, Nat.shiftLeft_eq]
    rcases Nat.lt_or_ge k m with hkm | hkm
    · have hsplit : m * 2 ^ (32 * m)
          = m * 2 ^ (32 * m - 32 * (k+1)) * 2 ^ (32 * (k+1)) := by
        rw [mul_assoc, ← pow_add]
        congr 2
        omega
      rw [hsplit, wget_add_mul_high]
      exact ih (by omega) k hkm
    · have hk_eq : k = m := by omega
      subst hk_eq
      rw [wget, Nat.shiftRight_eq_div_pow,
        Nat.add_mul_div_right _ _ (show 0 < 2 ^ (32 * k) by positivity),
        Nat.div_eq_of_lt (encodeRange_lt k (by omega)), Nat.zero_add,
        Nat.mod_eq_of_lt (show k < W by omega)]

theorem npPermutationNum_inv (n : ℕ) (hn : n ≤ W) :
    PermInv n (npPermutationNum n) := by
  rw [npPermutationNum]
  rcases Nat.eq_zero_or_pos n with h0 | hpos
  · subst h0
    exact ⟨fun k hk => by omega, fun k1 k2 h1 h2 _ => by omega⟩
  · refine shuffle_inv n (n-1) _ _ (by omega) ⟨?_, ?_⟩
    · intro k hk
      rw [encodeRange_wget n hn k hk]
      exact hk
    · intro k1 k2 h1 h2 hne
      rw [encodeRange_wget n hn _ h1, encodeRange_wget n hn _ h2]
      exact hne

theorem npPermutation_lt {n : ℕ} (hn : n ≤ W) : ∀ x ∈ npPermutation n, x < n := by
  intro x hx
  rw [npPermutation] at hx
  obtain ⟨k, hk, rfl⟩ := List.mem_map.mp hx
  rw [List.mem_range] at hk
  exact (npPermutationNum_inv n hn).1 k hk

theorem npPermutation_nodup {n : ℕ} (hn : n ≤ W) : (npPermutation n).Nodup := by
  rw [npPermutation]
  refine List.Nodup.map_on ?_ (List.nodup_range n)
  intro x hx y hy hxy
  rw [List.mem_range] at hx
  rw [List.mem_range] at hy
  by_contra hne
  exact (npPermutationNum_inv n hn).2 x y hx hy hne hxy

theorem getD_map_lt {α β : Type} (f : α → β) :
    ∀ (l : List α) (k : ℕ), k < l.length → ∀ (d1 : β) (d2 : α),
      (l.map f).getD k d1 = f (l.getD k d2) := by
  intro l
  induction l with
  | nil =>
    intro k hk
    simp at hk
  | cons a t ih =>
    intro k hk d1 d2
    cases k with
    | zero => rfl
    | succ m =>
      simp only [List.map_cons, List.getD_cons_succ]
      refine ih m ?_ d1 d2
      simp only [List.length_cons] at hk
      omega

theorem hoverList_getD (dh : Hover) :
    ∀ (i : ℕ) (rs : List Rec) (vs ims gs : List ℚ) (k : ℕ),
      k < rs.length → k < vs.length → k < ims.length → k < gs.length →
      (hoverList i rs vs ims gs).getD k dh
        = ⟨companyLabel (i + k) (rs.getD k default), vs.getD k 0,
            ims.getD k 0, gs.getD k 0⟩ := by
  intro i rs
  induction rs generalizing i with
  | nil =>
    intro vs ims gs k hk
    simp at hk
  | cons r rt ih =>
    intro vs ims gs k hr hv him hg
    cases vs with
    | nil => simp at hv
    | cons v vt =>
      cases ims with
      | nil => simp at him
      | cons im imt =>
        cases gs with
        | nil => simp at hg
        | cons g gt =>
          cases k with
          | zero => simp [hoverList]
          | succ m =>
            simp only [hoverList, List.getD_cons_succ]
            rw [ih (i+1) vt imt gt m (by simp at hr; omega) (by simp at hv; omega)
              (by simp at him; omega) (by simp at hg; omega)]
            congr 2
            omega

theorem range_getD {n k : ℕ} (h : k < n) : (List.range n).getD k 0 = k := by
  rw [List.getD_eq_getElem _ _ (by simpa using h), List.getElem_range]

/-- The sine of a nonzero rational is nonzero (since `π` is irrational). -/
theorem sin_rat_ne_zero (q : ℚ) (hq : q ≠ 0) : Real.sin (q : ℝ) ≠ 0 := by
  intro h
  rw [Real.sin_eq_zero_iff] at h
  obtain ⟨n, hn⟩ := h
  rcases eq_or_ne n 0 with h0 | h0
  · subst h0
    simp only [Int.cast_zero, zero_mul] at hn
    exact hq (by exact_mod_cast hn.symm)
  · have hne2 : ((n : ℤ) : ℝ) ≠ 0 := Int.cast_ne_zero.mpr h0
    refine irrational_pi ⟨q / (n : ℚ), ?_⟩
    push_cast
    rw [div_eq_iff hne2]
    linear_combination -hn

/-- Two angles whose sines agree at two distinct rational phase shifts
differ by a multiple of 2π. -/
theorem sin_two_shifts {x y : ℝ} {c1 c2 : ℚ}
    (hc : c1 ≠ c2)
    (h1 : Real.sin (x + (c1 : ℝ)) = Real.sin (y + (c1 : ℝ)))
    (h2 : Real.sin (x + (c2 : ℝ)) = Real.sin (y + (c2 : ℝ))) :
    ∃ n : ℤ, (n : ℝ) * (2 * Real.pi) = x - y := by
  have hd : ((c2 - c1 : ℚ) : ℝ) ≠ 0 := by
    simp only [ne_eq, Rat.cast_eq_zero, sub_eq_zero]
    exact fun hcontra => hc hcontra.symm
  have hsd : Real.sin ((c2 - c1 : ℚ) : ℝ) ≠ 0 :=
    sin_rat_ne_zero _ (sub_ne_zero.mpr (Ne.symm hc))
  have e1 : Real.sin (x + (c2 : ℝ))
      = Real.sin (x + (c1 : ℝ)) * Real.cos ((c2 - c1 : ℚ) : ℝ)
        + Real.cos (x + (c1 : ℝ)) * Real.sin ((c2 - c1 : ℚ) : ℝ) := by
    rw [← Real.sin_add]
    congr 1
    push_cast
    ring
  have e2 : Real.sin (y + (c2 : ℝ))
      = Real.sin (y + (c1 : ℝ)) * Real.cos ((c2 - c1 : ℚ) : ℝ)
        + Real.cos (y + (c1 : ℝ)) * Real.sin ((c2 - c1 : ℚ) : ℝ) := by
    rw [← Real.sin_add]
    congr 1
    push_cast
    ring
  have hcos : Real.cos (x + (c1 : ℝ)) = Real.cos (y + (c1 : ℝ)) := by
    have h3 : Real.cos (x + (c1 : ℝ)) * Real.sin ((c2 - c1 : ℚ) : ℝ)
        = Real.cos (y + (c1 : ℝ)) * Real.sin ((c2 - c1 : ℚ) : ℝ) := by
      rw [e1, e2, h1] at h2
      linarith
    exact mul_right_cancel₀ hsd h3
  have hone : Real.cos (x + (c1 : ℝ) - (y + (c1 : ℝ))) = 1 := by
    rw [Real.cos_sub, hcos, h1]
    have := Real.sin_sq_add_cos_sq (y + (c1 : ℝ))
    nlinarith [this]
  rw [Real.cos_eq_one_iff] at hone
  obtain ⟨n, hn⟩ := hone
  refine ⟨n, ?_⟩
  rw [hn]
  ring

/-- The core C8 distinctness fact: between two distinct frames (of the 60),
the ripple z value changes for at least one of any two distinct row
labels. -/
theorem ripple_two_labels {f1 f2 i1 i2 : ℕ} (hf1 : f1 < 60) (hf2 : f2 < 60)
    (hff : f1 ≠ f2) (hii : i1 ≠ i2) :
    realRippleZ ((2*f1 : ℚ)/60, (i1 : ℚ)/5) ≠ realRippleZ ((2*f2 : ℚ)/60, (i1 : ℚ)/5) ∨
    realRippleZ ((2*f1 : ℚ)/60, (i2 : ℚ)/5) ≠ realRippleZ ((2*f2 : ℚ)/60, (i2 : ℚ)/5) := by
  by_contra hcon
  push_neg at hcon
  obtain ⟨e1, e2⟩ := hcon
  have hs1 : Real.sin (((2*f1 : ℚ)/60 : ℚ) * Real.pi + ((i1 : ℚ)/5 : ℚ))
      = Real.sin (((2*f2 : ℚ)/60 : ℚ) * Real.pi + ((i1 : ℚ)/5 : ℚ)) := by
    unfold realRippleZ at e1
    simp only at e1
    linarith
  have hs2 : Real.sin (((2*f1 : ℚ)/60 : ℚ) * Real.pi + ((i2 : ℚ)/5 : ℚ))
      = Real.sin (((2*f2 : ℚ)/60 : ℚ) * Real.pi + ((i2 : ℚ)/5 : ℚ)) := by
    unfold realRippleZ at e2
    simp only at e2
    linarith
  have hcne : (i1 : ℚ)/5 ≠ (i2 : ℚ)/5 := by
    intro hcontra
    apply hii
    have : (i1 : ℚ) = (i2 : ℚ) := by
      field_simp at hcontra
      exact_mod_cast hcontra
    exact_mod_cast this
  obtain ⟨n, hn⟩ := sin_two_shifts hcne hs1 hs2
  have hx : (((2*f1 : ℚ)/60 : ℚ) : ℝ) * Real.pi - (((2*f2 : ℚ)/60 : ℚ) : ℝ) * Real.pi
      = (((f1 : ℝ) - (f2 : ℝ)) / 30) * Real.pi := by
    push_cast
    ring
  rw [hx] at hn
  have hpi := Real.pi_ne_zero
  have hlin : (n : ℝ) * 2 = ((f1 : ℝ) - (f2 : ℝ)) / 30 := by
    have h60 : ((n : ℝ) * 2 - ((f1 : ℝ) - (f2 : ℝ)) / 30) * Real.pi = 0 := by
      linear_combination hn
    rcases mul_eq_zero.mp h60 with h | h
    · linarith
    · exact absurd h hpi
  have hint : (n : ℝ) * 60 = (f1 : ℝ) - (f2 : ℝ) := by linarith
  have hintz : (n : ℤ) * 60 = (f1 : ℤ) - (f2 : ℤ) := by exact_mod_cast hint
  omega

/-! ### Claim theorems -/

/-- C2: every one of the five layout engines, fed the empty dataset, returns
the designated error scene — a single degenerate point at the origin — and
(being total functions of the model) propagates no exception. -/
theorem empty_input_yields_origin_sentinel (s : MTState) (interp : Interp) :
    create_spiral_tunnel_visualization s [] = .errorScene (0, 0, 0) ∧
    create_wave_surface_visualization interp s [] = .errorScene (0, 0, 0) ∧
    create_ripple_bubbles_visualization s [] = .errorScene (0, 0, 0) ∧
    create_undulating_wave_visualization s [] = .errorScene (0, 0, 0) ∧
    create_geolocation_visualization s [] = .errorScene (0, 0, 0) :=
  ⟨rfl, rfl, rfl, rfl, rfl⟩

/-- C7: down-sampling to a cap is idempotent (`downsample (downsample ds cap)
cap = downsample ds cap` when `ds.length > cap`), and a dataset within the
cap is returned unchanged. -/
theorem downsample_idempotent {α : Type} (d : α) (ds : List α) (cap : ℕ)
    (h : ds.length > cap) :
    downsample d (downsample d ds cap) cap = downsample d ds cap ∧
    ∀ ds2 : List α, ds2.length ≤ cap → downsample d ds2 cap = ds2 := by
  constructor
  · exact downsample_of_le d (by rw [downsample_length_of_gt d h])
  · intro ds2 h2
    exact downsample_of_le d h2

theorem downsample_idempotent_witness :
    ([5, 6, 7] : List ℕ).length > 2 ∧
    (downsample 0 (downsample 0 [5, 6, 7] 2) 2 = downsample 0 [5, 6, 7] 2 ∧
      ∀ ds2 : List ℕ, ds2.length ≤ 2 → downsample 0 ds2 2 = ds2) :=
  ⟨by decide, downsample_idempotent 0 [5, 6, 7] 2 (by decide)⟩

/-- C9: `generate 100` piped (as raw records) into the spiral tunnel engine
yields exactly 100 coordinate triples whose z column is `linspace 0 100
100`, hence every z lies in `[0, 100]` — for every draw oracle and every
ambient RNG state. -/
theorem generate_spiral_tunnel_z (s : MTState) (ω : ℕ → GenDraws) :
    stZs (create_spiral_tunnel_visualization s ((generate 100 ω).map GenRec.toRec)) =
      linspace 0 100 100 ∧
    (stZs (create_spiral_tunnel_visualization s ((generate 100 ω).map GenRec.toRec))).length
      = 100 ∧
    ∀ z ∈ stZs (create_spiral_tunnel_visualization s ((generate 100 ω).map GenRec.toRec)),
      0 ≤ z ∧ z ≤ 100 := by
  have hlen : ((generate 100 ω).map GenRec.toRec).length = 100 := by
    simp [generate]
  have hne : ¬ ((generate 100 ω).map GenRec.toRec = []) := by
    intro h
    rw [h] at hlen
    simp at hlen
  have hdf : downsample default ((generate 100 ω).map GenRec.toRec) 1000
      = (generate 100 ω).map GenRec.toRec :=
    downsample_of_le _ (by rw [hlen]; norm_num)
  have hz : stZs (create_spiral_tunnel_visualization s ((generate 100 ω).map GenRec.toRec))
      = linspace 0 100 100 := by
    unfold create_spiral_tunnel_visualization
    rw [if_neg hne]
    simp only [stZs]
    rw [hdf, hlen]
  refine ⟨hz, ?_, ?_⟩
  · rw [hz, length_linspace]
  · rw [hz]
    exact linspace_mem_bounds (by norm_num)

/-- C1 counterexample: the draws `d0` are valid (sector `SaaS`, base 5 in
[0.5, 80], status `Decacorn`, shared jitter 4/5 ∈ [0.8, 1.2]), yet the
emitted record is a Decacorn with valuation 8 < 10: the shared jitter is
applied after the status clamp and can undershoot the floor. -/
theorem generator_status_floor_counterexample :
    ValidDraws d0 ∧ (makeRecord 0 d0).status = "Decacorn" ∧
    (makeRecord 0 d0).valuation = 8 ∧ ¬ 10 ≤ (makeRecord 0 d0).valuation := by
  have hval : (makeRecord 0 d0).valuation = 8 := by
    norm_num [makeRecord, d0, statuses, statusClamp, sectors, max_def]
  refine ⟨?_, rfl, hval, ?_⟩
  · simp [ValidDraws, d0, sectors, sectorRanges]; norm_num
  · rw [hval]; norm_num

/-- C1 (amended): for all valid draws, the status floor holds for the
pre-jitter clamped base (Decacorn ≥ 10, Hectocorn ≥ 100, Soonicorn ≤ 1);
the emitted valuation — clamped base times the shared jitter in
[0.8, 1.2] — satisfies the jitter-scaled floors ≥ 8, ≥ 80, and ≤ 1.2. -/
theorem generator_status_floor_amended (i : ℕ) (d : GenDraws) (h : ValidDraws d) :
    ((makeRecord i d).status = "Decacorn" →
      10 ≤ statusClamp (makeRecord i d).status d.valBase ∧
      8 ≤ (makeRecord i d).valuation) ∧
    ((makeRecord i d).status = "Hectocorn" →
      100 ≤ statusClamp (makeRecord i d).status d.valBase ∧
      80 ≤ (makeRecord i d).valuation) ∧
    ((makeRecord i d).status = "Soonicorn" →
      statusClamp (makeRecord i d).status d.valBase ≤ 1 ∧
      (makeRecord i d).valuation ≤ 6/5) := by
  obtain ⟨-, -, -, hlo, -, -, -, -, -, hc1, hc2, -, -⟩ := h
  have hbase : (1/2 : ℚ) ≤ d.valBase := by
    refine le_trans ?_ hlo
    unfold sectorRanges
    split_ifs <;> norm_num
  have hc0 : (0 : ℚ) ≤ d.corr := by linarith
  have hst : (makeRecord i d).status = statuses.getD d.status "" := rfl
  have hv : (makeRecord i d).valuation
      = statusClamp (statuses.getD d.status "") d.valBase * d.corr := rfl
  refine ⟨fun hD => ?_, fun hH => ?_, fun hS => ?_⟩
  · rw [hst] at hD
    rw [hst, hD, hv, hD]
    have h10 : (10 : ℚ) ≤ statusClamp "Decacorn" d.valBase := by
      rw [statusClamp, if_pos rfl]
      exact le_max_left 10 d.valBase
    refine ⟨h10, ?_⟩
    have h1 : 10 * d.corr ≤ statusClamp "Decacorn" d.valBase * d.corr :=
      mul_le_mul_of_nonneg_right h10 hc0
    nlinarith
  · rw [hst] at hH
    rw [hst, hH, hv, hH]
    have h100 : (100 : ℚ) ≤ statusClamp "Hectocorn" d.valBase := by
      rw [statusClamp, if_neg (by decide), if_pos rfl]
      exact le_max_left 100 d.valBase
    refine ⟨h100, ?_⟩
    have h1 : 100 * d.corr ≤ statusClamp "Hectocorn" d.valBase * d.corr :=
      mul_le_mul_of_nonneg_right h100 hc0
    nlinarith
  · rw [hst] at hS
    rw [hst, hS, hv, hS]
    have hcl : statusClamp "Soonicorn" d.valBase = min 1 d.valBase := by
      rw [statusClamp, if_neg (by decide), if_neg (by decide), if_pos rfl]
    rw [hcl]
    have hm1 : min 1 d.valBase ≤ 1 := min_le_left 1 d.valBase
    have hm0 : (0 : ℚ) ≤ min 1 d.valBase := le_min (by norm_num) (by linarith)
    refine ⟨hm1, ?_⟩
    have h1 : min 1 d.valBase * d.corr ≤ 1 * (6/5) :=
      mul_le_mul hm1 hc2 hc0 (by norm_num)
    linarith

theorem generator_status_floor_amended_witness :
    ValidDraws d0 ∧
    (((makeRecord 0 d0).status = "Decacorn" →
        10 ≤ statusClamp (makeRecord 0 d0).status d0.valBase ∧
        8 ≤ (makeRecord 0 d0).valuation) ∧
      ((makeRecord 0 d0).status = "Hectocorn" →
        100 ≤ statusClamp (makeRecord 0 d0).status d0.valBase ∧
        80 ≤ (makeRecord 0 d0).valuation) ∧
      ((makeRecord 0 d0).status = "Soonicorn" →
        statusClamp (makeRecord 0 d0).status d0.valBase ≤ 1 ∧
        (makeRecord 0 d0).valuation ≤ 6/5)) :=
  ⟨by simp [ValidDraws, d0, sectors, sectorRanges]; norm_num,
   generator_status_floor_amended 0 d0
     (by simp [ValidDraws, d0, sectors, sectorRanges]; norm_num)⟩

/-- C4: at the two-record dataset `dsC4`, the undulating-wave grid height
radicand at the padded corner node is the source's denominator-squared
expression `(x−xmin)/((xmax−xmin+ε)²) + (y−ymin)/((ymax−ymin+ε)²)` and is
negative there (so `np.sqrt` produces NaN), while the radicand the claim
states (normalized coordinates squared) is nonnegative, and the two
disagree at that node. -/
theorem undulating_wave_radicand_code_bug :
    uwGrid00 (create_undulating_wave_visualization (mtInit 42) dsC4)
      = codeRadicand 0 10 0 100 (-1) (-10) ∧
    codeRadicand 0 10 0 100 (-1) (-10) < 0 ∧
    0 ≤ specRadicand 0 10 0 100 (-1) (-10) ∧
    codeRadicand 0 10 0 100 (-1) (-10) ≠ specRadicand 0 10 0 100 (-1) (-10) := by
  refine ⟨?_, ?_, ?_, ?_⟩
  · rw [create_undulating_wave_visualization, if_neg (by simp [dsC4])]
    norm_num [dsC4, downsample, colOf, uwGrid00, qmin, qmax, linspace,
      List.range_succ_eq_map, min_def, max_def]
  · norm_num [codeRadicand, eps]
  · have h1 : (0:ℚ) ≤ ((-1 : ℚ) - 0) ^ 2 / (10 - 0 + eps) ^ 2 := by positivity
    have h2 : (0:ℚ) ≤ ((-10 : ℚ) - 0) ^ 2 / (100 - 0 + eps) ^ 2 := by positivity
    simp only [specRadicand, div_pow]
    linarith
  · norm_num [codeRadicand, specRadicand, eps]

/-- C5 counterexample: on the claim's own two-record input the wave-surface
engine returns the single-point error sentinel (the degenerate two-site
configuration makes the cubic triangulation fail), so the output contains
no 100×100 surface grid at all. -/
theorem wave_surface_two_identical_counterexample :
    create_wave_surface_visualization interpZero (mtInit 42) dsC5
      = .errorScene (0, 0, 0) ∧
    ∀ b : WSBody,
      create_wave_surface_visualization interpZero (mtInit 42) dsC5 ≠ .scene b := by
  have h1 : create_wave_surface_visualization interpZero (mtInit 42) dsC5
      = .errorScene (0, 0, 0) := by
    rw [create_wave_surface_visualization, if_neg (by simp [dsC5])]
    norm_num [dsC5, downsample, colOf, collinearB, List.zip, List.zipWith]
  refine ⟨h1, fun b => ?_⟩
  rw [h1]
  intro hcontra
  exact Fig.noConfusion hcontra

/-- C5 (amended): on the claim's two-record input no exception propagates
and no division error occurs — the ε-guarded growth normalization
denominator is the nonzero `1e-9` — but the cubic interpolation's
triangulation fails on the two coincident sites, and the engine returns
the single-point error sentinel instead of a surface scene, for every
interpolant and every ambient RNG state. -/
theorem wave_surface_two_identical_amended (interp : Interp) (s : MTState) :
    create_wave_surface_visualization interp s dsC5 = .errorScene (0, 0, 0) ∧
    qmax [(100 : ℚ), 100] - qmin [(100 : ℚ), 100] + eps ≠ 0 ∧
    collinearB [((100 : ℚ), (10 : ℚ)), (100, 10)] = true := by
  refine ⟨?_, ?_, ?_⟩
  · rw [create_wave_surface_visualization, if_neg (by simp [dsC5])]
    norm_num [dsC5, downsample, colOf, collinearB, List.zip, List.zipWith]
  · norm_num [qmin, qmax, eps]
  · norm_num [collinearB]

/-- C10: the geolocation spiral engine never reads `'Growth Rate (%)'`:
two raw datasets agreeing on every record's company, valuation and impact
fields (arbitrary growth fields) render to identical figures — spiral
coordinates, sizes, colors and hover texts included. -/
theorem geolocation_growth_independent (s : MTState) (ds1 ds2 : List Rec)
    (h : ds1.map eraseGrowth = ds2.map eraseGrowth) :
    create_geolocation_visualization s ds1 = create_geolocation_visualization s ds2 := by
  have hlen : ds1.length = ds2.length := map_eq_length h
  by_cases hnil : ds1 = []
  · subst hnil
    cases ds2 with
    | nil => rfl
    | cons b t => simp at h
  · have hnil2 : ¬ ds2 = [] := by
      intro h2
      subst h2
      cases ds1 with
      | nil => exact hnil rfl
      | cons a t => simp at h
    have hvflag : (ds1.any fun r => r.valuation.isSome)
        = (ds2.any fun r => r.valuation.isSome) := by
      have h2 := congrArg
        (fun l => l.any (fun e : Option String × Option ℚ × Option ℚ => e.2.1.isSome)) h
      simpa [list_any_map, eraseGrowth] using h2
    have hiflag : (ds1.any fun r => r.impact.isSome)
        = (ds2.any fun r => r.impact.isSome) := by
      have h2 := congrArg
        (fun l => l.any (fun e : Option String × Option ℚ × Option ℚ => e.2.2.isSome)) h
      simpa [list_any_map, eraseGrowth] using h2
    have hdf : (downsample default ds1 2000).map eraseGrowth
        = (downsample default ds2 2000).map eraseGrowth := by
      rw [downsample, downsample, hlen]
      by_cases hc : ds2.length > 2000
      · rw [if_pos hc, if_pos hc, List.map_map, List.map_map]
        refine List.map_congr_left ?_
        intro j _
        exact map_eq_imp_getD eraseGrowth h j default
      · rw [if_neg hc, if_neg hc]
        exact h
    have hn : (downsample default ds1 2000).length
        = (downsample default ds2 2000).length := map_eq_length hdf
    have hvcol : colOf (ds1.any fun r => r.valuation.isSome) Rec.valuation 1 50
          (downsample default ds1 2000) s
        = colOf (ds2.any fun r => r.valuation.isSome) Rec.valuation 1 50
          (downsample default ds2 2000) s := by
      rw [hvflag, colOf, colOf]
      by_cases hp : (ds2.any fun r => r.valuation.isSome) = true
      · rw [if_pos hp, if_pos hp]
        refine congrArg (fun l => (l, s)) ?_
        have h3 := congrArg
          (List.map (fun e : Option String × Option ℚ × Option ℚ => e.2.1.getD 0)) hdf
        simpa [List.map_map, Function.comp, eraseGrowth] using h3
      · rw [if_neg hp, if_neg hp, hn]
    have hicol : ∀ t : MTState,
        colOf (ds1.any fun r => r.impact.isSome) Rec.impact 20 90
          (downsample default ds1 2000) t
        = colOf (ds2.any fun r => r.impact.isSome) Rec.impact 20 90
          (downsample default ds2 2000) t := by
      intro t
      rw [hiflag, colOf, colOf]
      by_cases hp : (ds2.any fun r => r.impact.isSome) = true
      · rw [if_pos hp, if_pos hp]
        refine congrArg (fun l => (l, t)) ?_
        have h3 := congrArg
          (List.map (fun e : Option String × Option ℚ × Option ℚ => e.2.2.getD 0)) hdf
        simpa [List.map_map, Function.comp, eraseGrowth] using h3
      · rw [if_neg hp, if_neg hp, hn]
    have hcomp : ∀ ord : List ℕ,
        (ord.map (fun j => (downsample default ds1 2000).getD j default)).map Rec.company
        = (ord.map (fun j => (downsample default ds2 2000).getD j default)).map
            Rec.company := by
      intro ord
      rw [List.map_map, List.map_map]
      refine List.map_congr_left ?_
      intro j _
      exact congrArg Prod.fst (map_eq_imp_getD eraseGrowth hdf j default)
    rw [create_geolocation_visualization, create_geolocation_visualization,
      if_neg hnil, if_neg hnil2]
    simp only [hvcol, hicol, hn]
    rw [geoHover_congr 0 _ _ _ _ (hcomp _)]

theorem geolocation_growth_independent_witness :
    ([{ company := some "A", valuation := some 3, impact := some 4, growth := some 7 },
      { company := some "B", valuation := some 1, impact := some 2, growth := none }]
        : List Rec).map eraseGrowth
      = ([{ company := some "A", valuation := some 3, impact := some 4, growth := some 50 },
          { company := some "B", valuation := some 1, impact := some 2,
            growth := some 9 }] : List Rec).map eraseGrowth ∧
    create_geolocation_visualization (mtInit 42)
        [{ company := some "A", valuation := some 3, impact := some 4, growth := some 7 },
         { company := some "B", valuation := some 1, impact := some 2, growth := none }]
      = create_geolocation_visualization (mtInit 42)
        [{ company := some "A", valuation := some 3, impact := some 4, growth := some 50 },
         { company := some "B", valuation := some 1, impact := some 2, growth := some 9 }] :=
  ⟨rfl, geolocation_growth_independent (mtInit 42) _ _ rfl⟩

/-- C6 counterexample: on a dataset whose `'Growth Rate (%)'` column is
absent, the spiral tunnel engine fills it from the ambient (unseeded)
`np.random` state, so two renders of the identical input at different
ambient states produce different figures (the hover growth value differs). -/
theorem spiral_tunnel_ambient_rng_counterexample :
    create_spiral_tunnel_visualization (mtInit 42) [recNoG]
      ≠ create_spiral_tunnel_visualization (mtInit 43) [recNoG] := by
  intro heq
  have h2 := congrArg stHover heq
  have h42 : stHover (create_spiral_tunnel_visualization (mtInit 42) [recNoG])
      = [⟨"X", 10, 50,
          50 + (200 - 50) * (((rkMantissa (mtInit 42)).1 : ℚ) / 9007199254740992)⟩] := rfl
  have h43 : stHover (create_spiral_tunnel_visualization (mtInit 43) [recNoG])
      = [⟨"X", 10, 50,
          50 + (200 - 50) * (((rkMantissa (mtInit 43)).1 : ℚ) / 9007199254740992)⟩] := rfl
  rw [h42, h43] at h2
  simp only [List.cons.injEq, Hover.mk.injEq, and_true, true_and] at h2
  field_simp at h2
  rcases h2 with h4 | hbad
  · have h5 : (rkMantissa (mtInit 42)).1 = 3373557479352566 := by decide
    have h6 : (rkMantissa (mtInit 43)).1 = 1036319404640565 := by decide
    rw [h5, h6] at h4
    exact absurd h4 (by decide)
  · norm_num at hbad

/-- C6 (amended): for datasets in which every record carries all three
numeric fields (so no ambient-RNG column fill can trigger), each of the
five engines is a function of the dataset alone: renders at any two
ambient RNG states are identical — the fixed-seed (42) down-sampling and
the fixed-seed (42) marker positions of the ripple-bubbles and
undulating-wave engines are reproduced exactly. -/
theorem engines_fixed_seed_reproducible (ds : List Rec)
    (hall : ∀ r ∈ ds, r.growth.isSome = true ∧ r.valuation.isSome = true ∧
      r.impact.isSome = true)
    (s1 s2 : MTState) (interp : Interp) :
    create_spiral_tunnel_visualization s1 ds = create_spiral_tunnel_visualization s2 ds ∧
    create_wave_surface_visualization interp s1 ds
      = create_wave_surface_visualization interp s2 ds ∧
    create_ripple_bubbles_visualization s1 ds = create_ripple_bubbles_visualization s2 ds ∧
    create_undulating_wave_visualization s1 ds
      = create_undulating_wave_visualization s2 ds ∧
    create_geolocation_visualization s1 ds = create_geolocation_visualization s2 ds := by
  by_cases hnil : ds = []
  · subst hnil
    exact ⟨rfl, rfl, rfl, rfl, rfl⟩
  · obtain ⟨a, t, rfl⟩ : ∃ a t, ds = a :: t := by
      cases ds with
      | nil => exact absurd rfl hnil
      | cons a t => exact ⟨a, t, rfl⟩
    obtain ⟨hg, hv, hi⟩ := hall a (List.mem_cons_self a t)
    have hG : ((a :: t).any fun r => r.growth.isSome) = true := by
      simp [List.any_cons, hg]
    have hV : ((a :: t).any fun r => r.valuation.isSome) = true := by
      simp [List.any_cons, hv]
    have hI : ((a :: t).any fun r => r.impact.isSome) = true := by
      simp [List.any_cons, hi]
    refine ⟨?_, ?_, ?_, ?_, ?_⟩
    · rw [create_spiral_tunnel_visualization, create_spiral_tunnel_visualization,
        if_neg hnil, if_neg hnil]
      simp only [colOf, if_pos hG, if_pos hV, if_pos hI]
    · rw [create_wave_surface_visualization, create_wave_surface_visualization,
        if_neg hnil, if_neg hnil]
      simp only [colOf, if_pos hG, if_pos hV, if_pos hI]
    · rw [create_ripple_bubbles_visualization, create_ripple_bubbles_visualization,
        if_neg hnil, if_neg hnil]
      simp only [colOf, if_pos hG, if_pos hV, if_pos hI]
    · rw [create_undulating_wave_visualization, create_undulating_wave_visualization,
        if_neg hnil, if_neg hnil]
      simp only [colOf, if_pos hG, if_pos hV, if_pos hI]
    · rw [create_geolocation_visualization, create_geolocation_visualization,
        if_neg hnil, if_neg hnil]
      simp only [colOf, if_pos hV, if_pos hI]

theorem engines_fixed_seed_reproducible_witness :
    (∀ r ∈ dsC4, r.growth.isSome = true ∧ r.valuation.isSome = true ∧
      r.impact.isSome = true) ∧
    (create_spiral_tunnel_visualization (mtInit 7) dsC4
        = create_spiral_tunnel_visualization (mtInit 8) dsC4 ∧
      create_wave_surface_visualization interpZero (mtInit 7) dsC4
        = create_wave_surface_visualization interpZero (mtInit 8) dsC4 ∧
      create_ripple_bubbles_visualization (mtInit 7) dsC4
        = create_ripple_bubbles_visualization (mtInit 8) dsC4 ∧
      create_undulating_wave_visualization (mtInit 7) dsC4
        = create_undulating_wave_visualization (mtInit 8) dsC4 ∧
      create_geolocation_visualization (mtInit 7) dsC4
        = create_geolocation_visualization (mtInit 8) dsC4) :=
  ⟨by decide,
   engines_fixed_seed_reproducible dsC4 (by decide) (mtInit 7) (mtInit 8) interpZero⟩

/-- C3 counterexample: with 1001 records the spiral tunnel's
`df.sample(n=1000, random_state=42)` places input row 941 at output
position 1 and input row 741 at output position 2 — the surviving records
are returned in the sampler's shuffled order, not input order. -/
theorem spiral_tunnel_downsample_reorders :
    downsampleIdx 1001 1000 1 = 941 ∧
    downsampleIdx 1001 1000 2 = 741 ∧
    ((downsample default demo1001 1000).getD 1 default).company = some "941" ∧
    ((downsample default demo1001 1000).getD 2 default).company = some "741" ∧
    ¬ (941 : ℕ) ≤ 741 := by
  decide

/-- C3 (amended): the spiral tunnel engine applies no sort, and the k-th
output point (z from `linspace(0,100,n)`, hover label and growth-derived
radius) corresponds positionally to the k-th row of the post-sample frame;
when the input exceeds the 1000-record cap, the sampled frame's row k is
the input record at original position `downsampleIdx`, a subset of the
input records but in the sampler's shuffled order; inputs within the cap
are passed through in original order. -/
theorem spiral_tunnel_order_amended (s : MTState) (data : List Rec)
    (hfull : ∀ r ∈ data, r.growth.isSome = true ∧ r.valuation.isSome = true ∧
      r.impact.isSome = true)
    (hne : data ≠ []) (hW : data.length ≤ W) :
    (∀ k, k < 1000 → data.length > 1000 →
      (downsample default data 1000).getD k default
        = data.getD (downsampleIdx data.length 1000 k) default) ∧
    (data.length ≤ 1000 → downsample default data 1000 = data) ∧
    (∀ r ∈ downsample default data 1000, r ∈ data) ∧
    stZs (create_spiral_tunnel_visualization s data)
      = linspace 0 100 (downsample default data 1000).length ∧
    (∀ k, k < (downsample default data 1000).length →
      (stHover (create_spiral_tunnel_visualization s data)).getD k
          ⟨"", 0, 0, 0⟩
        = ⟨companyLabel k ((downsample default data 1000).getD k default),
            ((downsample default data 1000).getD k default).valuation.getD 0,
            ((downsample default data 1000).getD k default).impact.getD 0,
            ((downsample default data 1000).getD k default).growth.getD 0⟩) := by
  obtain ⟨a, t, rfl⟩ : ∃ a t, data = a :: t := by
    cases data with
    | nil => exact absurd rfl hne
    | cons a t => exact ⟨a, t, rfl⟩
  obtain ⟨hg, hv, hi⟩ := hfull a (List.mem_cons_self a t)
  have hG : ((a :: t).any fun r => r.growth.isSome) = true := by
    simp [List.any_cons, hg]
  have hV : ((a :: t).any fun r => r.valuation.isSome) = true := by
    simp [List.any_cons, hv]
  have hI : ((a :: t).any fun r => r.impact.isSome) = true := by
    simp [List.any_cons, hi]
  refine ⟨?_, fun hle => downsample_of_le default hle, ?_, ?_, ?_⟩
  · intro k hk hgt
    rw [downsample, if_pos hgt, downsampleIdx]
    refine getD_map_lt _ _ k ?_ default 0
    rw [List.length_take, length_npPermutation]
    omega
  · intro r hr
    by_cases hgt : (a :: t).length > 1000
    · rw [downsample, if_pos hgt] at hr
      obtain ⟨j, hj, rfl⟩ := List.mem_map.mp hr
      have hjp : j ∈ npPermutation (a :: t).length := List.mem_of_mem_take hj
      have hjlt : j < (a :: t).length := npPermutation_lt hW j hjp
      rw [List.getD_eq_getElem _ _ hjlt]
      exact List.getElem_mem hjlt
    · rw [downsample, if_neg hgt] at hr
      exact hr
  · rw [create_spiral_tunnel_visualization,
      if_neg (by simp : ¬ (a :: t) = [])]
    simp only [stZs]
  · intro k hk
    rw [create_spiral_tunnel_visualization,
      if_neg (by simp : ¬ (a :: t) = [])]
    simp only [stHover, colOf, if_pos hG, if_pos hV, if_pos hI]
    have hlm : ∀ f : Rec → ℚ,
        k < ((downsample default (a :: t) 1000).map f).length := by
      intro f
      rw [List.length_map]
      exact hk
    rw [hoverList_getD ⟨"", 0, 0, 0⟩ 0 _ _ _ _ k hk (hlm _) (hlm _) (hlm _),
      getD_map_lt _ _ k hk 0 default, getD_map_lt _ _ k hk 0 default,
      getD_map_lt _ _ k hk 0 default]
    simp only [Nat.zero_add]

theorem spiral_tunnel_order_amended_witness :
    ((∀ r ∈ dsC4, r.growth.isSome = true ∧ r.valuation.isSome = true ∧
        r.impact.isSome = true) ∧ dsC4 ≠ [] ∧ dsC4.length ≤ W) ∧
    ((∀ k, k < 1000 → dsC4.length > 1000 →
      (downsample default dsC4 1000).getD k default
        = dsC4.getD (downsampleIdx dsC4.length 1000 k) default) ∧
    (dsC4.length ≤ 1000 → downsample default dsC4 1000 = dsC4) ∧
    (∀ r ∈ downsample default dsC4 1000, r ∈ dsC4) ∧
    stZs (create_spiral_tunnel_visualization (mtInit 42) dsC4)
      = linspace 0 100 (downsample default dsC4 1000).length ∧
    (∀ k, k < (downsample default dsC4 1000).length →
      (stHover (create_spiral_tunnel_visualization (mtInit 42) dsC4)).getD k
          ⟨"", 0, 0, 0⟩
        = ⟨companyLabel k ((downsample default dsC4 1000).getD k default),
            ((downsample default dsC4 1000).getD k default).valuation.getD 0,
            ((downsample default dsC4 1000).getD k default).impact.getD 0,
            ((downsample default dsC4 1000).getD k default).growth.getD 0⟩)) :=
  ⟨⟨by decide, by decide, by decide⟩,
   spiral_tunnel_order_amended (mtInit 42) dsC4 (by decide) (by decide) (by decide)⟩

/-- C8 counterexample: with a single record, frames 10 and 20 store z
arguments `π/3` and `2π/3` for the only row — the sine arguments differ
mod 2π — yet the rendered z values coincide (`sin(π/3) = sin(2π/3)`), so
"z differs for at least one record whenever the sine arguments differ mod
2π" fails as stated. -/
theorem ripple_frames_counterexample :
    ((rbFrames (create_ripple_bubbles_visualization (mtInit 42) dsC8)).getD 10
        ⟨[], [], []⟩).fzArg.getD 0 (0, 0) = (1/3, 0) ∧
    ((rbFrames (create_ripple_bubbles_visualization (mtInit 42) dsC8)).getD 20
        ⟨[], [], []⟩).fzArg.getD 0 (0, 0) = (2/3, 0) ∧
    (∀ m : ℤ, (1/3 : ℝ) * Real.pi ≠ (2/3 : ℝ) * Real.pi + (m : ℝ) * (2 * Real.pi)) ∧
    realRippleZ (1/3, 0) = realRippleZ (2/3, 0) := by
  have e10 : (List.range 60).getD 10 0 = 10 := by decide
  have e20 : (List.range 60).getD 20 0 = 20 := by decide
  refine ⟨?_, ?_, ?_, ?_⟩
  · rw [create_ripple_bubbles_visualization, if_neg (by simp [dsC8])]
    simp only [rbFrames]
    rw [getD_map_lt _ (List.range 60) 10 (by simp) _ 0, e10]
    norm_num [dsC8, downsample, sampleIdx, colOf, Prod.ext_iff]
  · rw [create_ripple_bubbles_visualization, if_neg (by simp [dsC8])]
    simp only [rbFrames]
    rw [getD_map_lt _ (List.range 60) 20 (by simp) _ 0, e20]
    norm_num [dsC8, downsample, sampleIdx, colOf, Prod.ext_iff]
  · rintro m h
    have hfac : ((1:ℝ)/3 - 2/3 - 2*(m:ℝ)) * Real.pi = 0 := by linear_combination h
    rcases mul_eq_zero.mp hfac with hc | hc
    · have h6 : (6*(m:ℝ)) = -1 := by linarith
      have h6z : (6*m : ℤ) = -1 := by exact_mod_cast h6
      omega
    · exact Real.pi_ne_zero hc
  · have hsin : Real.sin (((1/3 : ℚ) : ℝ) * Real.pi + ((0 : ℚ) : ℝ))
        = Real.sin (((2/3 : ℚ) : ℝ) * Real.pi + ((0 : ℚ) : ℝ)) := by
      have harg : ((2/3 : ℚ) : ℝ) * Real.pi + ((0 : ℚ) : ℝ)
          = Real.pi - (((1/3 : ℚ) : ℝ) * Real.pi + ((0 : ℚ) : ℝ)) := by
        push_cast
        ring
      rw [harg, Real.sin_pi_sub]
    unfold realRippleZ
    simp only
    rw [hsin]

/-- C8 (amended): every frame re-emits the base x/y positions; frame k's
stored z entries are `(2k/60, i/5)` over the frame's row labels, rendering
to `0.5 + 0.4·sin(2πk/60 + i/5)`; and for datasets of at least two records
any two distinct frames render different z for at least one row. -/
theorem ripple_frames_amended (s : MTState) (data : List Rec)
    (hfull : ∀ r ∈ data, r.growth.isSome = true ∧ r.valuation.isSome = true ∧
      r.impact.isSome = true)
    (h2 : 2 ≤ data.length) (hW : data.length ≤ W) :
    (∀ k, k < 60 →
      ((rbFrames (create_ripple_bubbles_visualization s data)).getD k ⟨[], [], []⟩).fx
        = rbBx (create_ripple_bubbles_visualization s data) ∧
      ((rbFrames (create_ripple_bubbles_visualization s data)).getD k ⟨[], [], []⟩).fy
        = rbBy (create_ripple_bubbles_visualization s data)) ∧
    (∀ k, k < 60 →
      ((rbFrames (create_ripple_bubbles_visualization s data)).getD k ⟨[], [], []⟩).fzArg
        = (sampleIdx data.length 800).map (fun i : ℕ => ((2 * (k : ℚ)) / 60, (i : ℚ) / 5))) ∧
    (∀ k i : ℕ, realRippleZ ((2 * (k : ℚ)) / 60, (i : ℚ) / 5)
        = 1/2 + 2/5 * Real.sin (2 * Real.pi * (k : ℝ) / 60 + (i : ℝ) / 5)) ∧
    (∀ f1 f2 : ℕ, f1 < 60 → f2 < 60 → f1 ≠ f2 →
      ∃ i ∈ sampleIdx data.length 800,
        realRippleZ ((2 * (f1 : ℚ)) / 60, (i : ℚ) / 5)
          ≠ realRippleZ ((2 * (f2 : ℚ)) / 60, (i : ℚ) / 5)) := by
  have hne : ¬ data = [] := by
    intro hnil
    rw [hnil] at h2
    simp at h2
  obtain ⟨a, t, rfl⟩ : ∃ a t, data = a :: t := by
    cases data with
    | nil => exact absurd rfl hne
    | cons a t => exact ⟨a, t, rfl⟩
  obtain ⟨hg, hv, hi⟩ := hfull a (List.mem_cons_self a t)
  have hG : ((a :: t).any fun r => r.growth.isSome) = true := by
    simp [List.any_cons, hg]
  have hV : ((a :: t).any fun r => r.valuation.isSome) = true := by
    simp [List.any_cons, hv]
  have hI : ((a :: t).any fun r => r.impact.isSome) = true := by
    simp [List.any_cons, hi]
  refine ⟨?_, ?_, ?_, ?_⟩
  · intro k hk
    rw [create_ripple_bubbles_visualization, if_neg hne]
    simp only [rbFrames, rbBx, rbBy, colOf, if_pos hG, if_pos hV, if_pos hI]
    rw [getD_map_lt _ (List.range 60) k (by simpa using hk) _ 0]
    exact ⟨rfl, rfl⟩
  · intro k hk
    rw [create_ripple_bubbles_visualization, if_neg hne]
    simp only [rbFrames, colOf, if_pos hG, if_pos hV, if_pos hI]
    rw [getD_map_lt _ (List.range 60) k (by simpa using hk) _ 0, range_getD hk]
  · intro k i
    unfold realRippleZ
    simp only
    congr 2
    push_cast
    ring_nf
  · intro f1 f2 hf1 hf2 hff
    have hlen : 2 ≤ (sampleIdx (a :: t).length 800).length := by
      rw [sampleIdx]
      split_ifs with hgt
      · rw [List.length_take, length_npPermutation]
        omega
      · rw [List.length_range]
        exact h2
    have hnodup : (sampleIdx (a :: t).length 800).Nodup := by
      rw [sampleIdx]
      split_ifs with hgt
      · exact List.Nodup.sublist (List.take_sublist _ _) (npPermutation_nodup hW)
      · exact List.nodup_range _
    have h0lt : 0 < (sampleIdx (a :: t).length 800).length := by omega
    have h1lt : 1 < (sampleIdx (a :: t).length 800).length := by omega
    have hii : (sampleIdx (a :: t).length 800).get ⟨0, h0lt⟩
        ≠ (sampleIdx (a :: t).length 800).get ⟨1, h1lt⟩ := by
      intro hcontra
      have hinj := List.nodup_iff_injective_get.mp hnodup hcontra
      simp at hinj
    rcases ripple_two_labels hf1 hf2 hff hii with h | h
    · exact ⟨_, List.get_mem _ _ _, h⟩
    · exact ⟨_, List.get_mem _ _ _, h⟩

theorem ripple_frames_amended_witness :
    ((∀ r ∈ dsC4, r.growth.isSome = true ∧ r.valuation.isSome = true ∧
        r.impact.isSome = true) ∧ 2 ≤ dsC4.length ∧ dsC4.length ≤ W) ∧
    ((∀ k, k < 60 →
      ((rbFrames (create_ripple_bubbles_visualization (mtInit 5) dsC4)).getD k
          ⟨[], [], []⟩).fx
        = rbBx (create_ripple_bubbles_visualization (mtInit 5) dsC4) ∧
      ((rbFrames (create_ripple_bubbles_visualization (mtInit 5) dsC4)).getD k
          ⟨[], [], []⟩).fy
        = rbBy (create_ripple_bubbles_visualization (mtInit 5) dsC4)) ∧
    (∀ k, k < 60 →
      ((rbFrames (create_ripple_bubbles_visualization (mtInit 5) dsC4)).getD k
          ⟨[], [], []⟩).fzArg
        = (sampleIdx dsC4.length 800).map (fun i : ℕ => ((2 * (k : ℚ)) / 60, (i : ℚ) / 5))) ∧
    (∀ k i : ℕ, realRippleZ ((2 * (k : ℚ)) / 60, (i : ℚ) / 5)
        = 1/2 + 2/5 * Real.sin (2 * Real.pi * (k : ℝ) / 60 + (i : ℝ) / 5)) ∧
    (∀ f1 f2 : ℕ, f1 < 60 → f2 < 60 → f1 ≠ f2 →
      ∃ i ∈ sampleIdx dsC4.length 800,
        realRippleZ ((2 * (f1 : ℚ)) / 60, (i : ℚ) / 5)
          ≠ realRippleZ ((2 * (f2 : ℚ)) / 60, (i : ℚ) / 5))) :=
  ⟨⟨by decide, by decide, by decide⟩,
   ripple_frames_amended (mtInit 5) dsC4 (by decide) (by decide) (by decide)⟩

end I2U
